import Mathlib

/-!
Verification of go-prisma: the HTTP handlers of `main.go` over a store interface

The program is a fiber application with four handlers (`HealthCheck`,
`CreatePost`, `GetPost`, `DeletePost`), a start-up sequence (`init`, `main`)
and a stand-alone routine `Run`.  The handlers are embedded as functions that
take the database client as an explicit interface (`Store`), thread the store
state, and record every client call they make in a trace.
-/

namespace GoPrisma

/-! ## JSON values and their rendering (Go `encoding/json`) -/

/-- JSON values, as far as the program produces them (no numbers occur). -/
inductive JVal where
  | null
  | bool (b : Bool)
  | str (s : String)
  | arr (xs : List JVal)
  | obj (kvs : List (String × JVal))

/-- One lower-case hexadecimal digit. -/
def hexDigit (n : Nat) : Char := Nat.digitChar (n % 16)

/-- Escaping of one character inside a JSON string, as `json.Marshal` does it:
the quote and the backslash get a backslash, newline, carriage return and tab
their short form, and the other control characters, the HTML-unsafe characters
and the two Unicode line separators are written as `\uXXXX`. -/
def escapeChar (c : Char) : List Char :=
  if c = Char.ofNat 34 then [Char.ofNat 92, Char.ofNat 34]
  else if c = Char.ofNat 92 then [Char.ofNat 92, Char.ofNat 92]
  else if c = Char.ofNat 10 then [Char.ofNat 92, 'n']
  else if c = Char.ofNat 13 then [Char.ofNat 92, 'r']
  else if c = Char.ofNat 9 then [Char.ofNat 92, 't']
  else if c.toNat < 32 ∨ c = '<' ∨ c = '>' ∨ c = '&' ∨ c.toNat = 8232 ∨ c.toNat = 8233 then
    [Char.ofNat 92, 'u', hexDigit (c.toNat / 4096), hexDigit (c.toNat / 256),
      hexDigit (c.toNat / 16), hexDigit c.toNat]
  else [c]

/-- A JSON string literal: the escaped characters between double quotes. -/
def quote (s : String) : List Char :=
  Char.ofNat 34 :: (s.data.flatMap escapeChar ++ [Char.ofNat 34])

mutual
/-- The characters of the compact encoding of a value. -/
def JVal.chars : JVal → List Char
  | .null => ['n', 'u', 'l', 'l']
  | .bool true => ['t', 'r', 'u', 'e']
  | .bool false => ['f', 'a', 'l', 's', 'e']
  | .str s => quote s
  | .arr xs => '[' :: (JVal.elems xs ++ [']'])
  | .obj kvs => Char.ofNat 123 :: (JVal.members kvs ++ [Char.ofNat 125])
/-- Array elements, separated by commas. -/
def JVal.elems : List JVal → List Char
  | [] => []
  | [x] => x.chars
  | x :: y :: r => x.chars ++ ',' :: JVal.elems (y :: r)
/-- Object members `"key":value`, separated by commas. -/
def JVal.members : List (String × JVal) → List Char
  | [] => []
  | [(k, v)] => quote k ++ ':' :: v.chars
  | (k, v) :: y :: r => quote k ++ ':' :: v.chars ++ ',' :: JVal.members (y :: r)
end

/-- The encoded bytes of a value, as written into a response body. -/
def JVal.render (v : JVal) : String := String.mk v.chars

/-! ## The data model -/

/-- Modelled from the spec: the generated record type `db.PostModel` is not part
of `main.go`.  A Post has a unique `id`, a required `title`, an optional
description (`Desc`, nullable) and a `published` flag. -/
structure Post where
  id : String
  title : String
  desc : Option String
  published : Bool
deriving DecidableEq, Repr

/-- Modelled from the spec: the JSON object of a Post, one member per field, a
null description written as `null`. -/
def Post.toJSON (p : Post) : JVal :=
  .obj [("id", .str p.id), ("title", .str p.title), ("published", .bool p.published),
    ("desc", match p.desc with
      | none => .null
      | some d => .str d)]

/-- The `fiber.Map` with the single entry of `HealthCheck`. -/
def healthMap : JVal := .obj [("data", .str "Server is up and running")]

/-! ## The store interface (`client *db.PrismaClient`) -/

/-- Modelled from the spec: the generated client package `api/db` is not part of
`main.go`; these are the calls the program makes on it.  Each call takes the
store state and returns its result and the next state.
`deleteUnique id` is `Post.FindUnique(db.Post.ID.Equals(id)).Delete().Exec`. -/
structure Store (σ ε : Type) where
  connect : σ → Option ε × σ
  disconnect : σ → Option ε × σ
  createOne : String → Bool → String → σ → Except ε Post × σ
  findMany : σ → Except ε (List Post) × σ
  findUnique : String → σ → Except ε Post × σ
  deleteUnique : String → σ → Except ε Post × σ

/-- A call on the client, without its result. -/
inductive StoreCall where
  | connect
  | disconnect
  | createOne (title : String) (published : Bool) (desc : String)
  | findMany
  | findUnique (id : String)
  | deleteUnique (id : String)
deriving DecidableEq, Repr

/-- A call on the client together with what the store answered. -/
inductive StoreEvent (ε : Type) where
  | connect (res : Option ε)
  | disconnect (res : Option ε)
  | createOne (title : String) (published : Bool) (desc : String) (res : Except ε Post)
  | findMany (res : Except ε (List Post))
  | findUnique (id : String) (res : Except ε Post)
  | deleteUnique (id : String) (res : Except ε Post)

/-- The call of an event. -/
def StoreEvent.call {ε : Type} : StoreEvent ε → StoreCall
  | .connect _ => .connect
  | .disconnect _ => .disconnect
  | .createOne t p d _ => .createOne t p d
  | .findMany _ => .findMany
  | .findUnique i _ => .findUnique i
  | .deleteUnique i _ => .deleteUnique i

/-! ## Requests, responses and the handler context (`*fiber.Ctx`) -/

/-- An inbound request as the router hands it to a handler: `params` are the
path parameters it resolved. -/
structure Request where
  method : String
  path : String
  params : List (String × String)
  query : List (String × String)
  body : String
deriving DecidableEq, Repr

/-- The response a client receives. -/
structure Response where
  status : Nat
  contentType : String
  body : String
deriving DecidableEq, Repr

/-- The response of a context nobody wrote to: status 200 and no body. -/
def Response.fresh : Response :=
  { status := 200, contentType := "text/plain; charset=utf-8", body := "" }

/-- The handler context: the request and the response under construction. -/
structure Ctx where
  req : Request
  resp : Response
deriving DecidableEq, Repr

/-- The context fiber builds for an inbound request. -/
def Ctx.acquire (req : Request) : Ctx := { req := req, resp := Response.fresh }

/-- Method `c.Params(key)`: the path parameter, or the empty string when absent. -/
def Ctx.Params (c : Ctx) (key : String) : String :=
  (c.req.params.lookup key).getD ""

/-- Method `c.JSON(data, ctype...)`: the body becomes the encoding of `data` and the
content type `ctype` (`application/json` when none is given); the status is
left as it is. -/
def Ctx.JSON (c : Ctx) (data : JVal) (ctype : Option String) : Ctx :=
  { c with resp := { c.resp with body := data.render,
                                 contentType := ctype.getD "application/json" } }

/-- What running a handler yields: the context it wrote to, the `error` it
returned (`none` for `nil`), the client calls it made, and the next store state. -/
structure Handled (σ ε : Type) where
  ctx : Ctx
  ret : Option String
  trace : List (StoreEvent ε)
  store : σ

/-- The response fiber sends after the handler returned: the context's response
when the handler returned `nil`, else the default error handler's status 500
with the error message. -/
def Handled.response {σ ε : Type} (h : Handled σ ε) : Response :=
  match h.ret with
  | none => h.ctx.resp
  | some msg => { status := 500, contentType := "text/plain; charset=utf-8", body := msg }

/-! ## The handlers of `main.go` -/

/-- Handler `HealthCheck`: it returns `c.JSON` of the map with the single entry
`data`, with the content type `application/problem+json`. -/
def HealthCheck {σ ε : Type} (_client : Store σ ε) (c : Ctx) (s : σ) : Handled σ ε :=
  { ctx := c.JSON healthMap (some "application/problem+json"), ret := none, trace := [],
    store := s }

/-- Handler `CreatePost`: one `CreateOne` with three fixed fields; on an error the
handler returns `nil` without writing, else it writes the created Post. -/
def CreatePost {σ ε : Type} (client : Store σ ε) (c : Ctx) (s : σ) : Handled σ ε :=
  match client.createOne "Hi from Lutfii!" true
      " is a database toolkit and makes databases easy." s with
  | (.error err, s1) =>
    { ctx := c, ret := none,
      trace := [.createOne "Hi from Lutfii!" true
        " is a database toolkit and makes databases easy." (.error err)],
      store := s1 }
  | (.ok createdPost, s1) =>
    { ctx := c.JSON createdPost.toJSON none, ret := none,
      trace := [.createOne "Hi from Lutfii!" true
        " is a database toolkit and makes databases easy." (.ok createdPost)],
      store := s1 }

/-- Handler `GetPost`: one `FindMany`; on an error the handler returns `nil` without
writing, else it writes the Posts as an array. -/
def GetPost {σ ε : Type} (client : Store σ ε) (c : Ctx) (s : σ) : Handled σ ε :=
  match client.findMany s with
  | (.error err, s1) =>
    { ctx := c, ret := none, trace := [.findMany (.error err)], store := s1 }
  | (.ok post, s1) =>
    { ctx := c.JSON (.arr (post.map Post.toJSON)) none, ret := none,
      trace := [.findMany (.ok post)], store := s1 }

/-- Handler `DeletePost`: one delete of the Post whose id is `c.Params("id")`; on an
error the handler returns `nil` without writing, else it writes the Post. -/
def DeletePost {σ ε : Type} (client : Store σ ε) (c : Ctx) (s : σ) : Handled σ ε :=
  match client.deleteUnique (c.Params "id") s with
  | (.error err, s1) =>
    { ctx := c, ret := none, trace := [.deleteUnique (c.Params "id") (.error err)],
      store := s1 }
  | (.ok post, s1) =>
    { ctx := c.JSON post.toJSON none, ret := none,
      trace := [.deleteUnique (c.Params "id") (.ok post)], store := s1 }

/-- The four handlers defined in `main.go`. -/
inductive Endpoint where
  | healthCheck
  | createPost
  | getPost
  | deletePost
deriving DecidableEq, Repr

/-- The handler function of an endpoint. -/
def Endpoint.handler {σ ε : Type} (e : Endpoint) (client : Store σ ε) (c : Ctx) (s : σ) :
    Handled σ ε :=
  match e with
  | .healthCheck => HealthCheck client c s
  | .createPost => CreatePost client c s
  | .getPost => GetPost client c s
  | .deletePost => DeletePost client c s

/-- Serving one inbound request with an endpoint: fresh context, handler. -/
def serve {σ ε : Type} (client : Store σ ε) (e : Endpoint) (req : Request) (s : σ) :
    Handled σ ε :=
  e.handler client (Ctx.acquire req) s

/-- Serving a sequence of requests one after the other: the client calls made,
in order, and the final store state. -/
def serveAll {σ ε : Type} (client : Store σ ε) :
    List (Endpoint × Request) → σ → List (StoreEvent ε) × σ
  | [], s => ([], s)
  | (e, req) :: rest, s =>
    ((serve client e req s).trace ++ (serveAll client rest (serve client e req s).store).1,
      (serveAll client rest (serve client e req s).store).2)

/-! ## Start-up: `init`, `main` and the route table -/

/-- What a registered route runs: one of the two swagger handlers (external) or
a handler of `main.go`. -/
inductive HandlerId where
  | swaggerDefault
  | swaggerCustom
  | api (e : Endpoint)
deriving DecidableEq, Repr

/-- One registration: method, path pattern, handler. -/
structure Route where
  method : String
  pattern : String
  handler : HandlerId
deriving DecidableEq, Repr

/-- The fiber application, as far as `main` uses it: the registrations in order. -/
structure App where
  routes : List Route
deriving DecidableEq, Repr

/-- The application `fiber.New()` returns. -/
def App.new : App := { routes := [] }

/-- Method `app.Get(pattern, handler)`: appends a GET registration. -/
def App.Get (app : App) (pattern : String) (h : HandlerId) : App :=
  { routes := app.routes ++ [{ method := "GET", pattern := pattern, handler := h }] }

/-- The (method, pattern) pairs of the registrations, in order. -/
def App.keys (app : App) : List (String × String) :=
  app.routes.map (fun r => (r.method, r.pattern))

/-- Modelled from the spec: the dispatcher belongs to the framework, not to
`main.go`; it takes the first registration whose method and pattern match
exactly. -/
def App.firstMatch (app : App) (method pattern : String) : Option HandlerId :=
  (app.routes.find? (fun r => r.method == method && r.pattern == pattern)).map Route.handler

/-- The six registrations `main` makes, in source order. -/
def registered : App :=
  (((((App.new.Get "/swagger/*" .swaggerDefault).Get "/swagger/*" .swaggerCustom).Get "/"
    (.api .healthCheck)).Get "/create-post" (.api .createPost)).Get "/get-post"
    (.api .getPost)).Get "/delete-post/:id" (.api .deletePost)

/-- What the process does, in order: client calls, and the start of listening. -/
inductive ProcEvent (ε : Type) where
  | store (e : StoreEvent ε)
  | listen (addr : String) (app : App)

/-- Function `init`: `client.Prisma.Connect()` is called and its result is discarded. -/
def init {σ ε : Type} (client : Store σ ε) (s : σ) : List (ProcEvent ε) × σ :=
  match client.connect s with
  | (res, s1) => ([.store (.connect res)], s1)

/-- Function `disconnect`: `client.Prisma.Disconnect()`, result discarded. -/
def disconnect {σ ε : Type} (client : Store σ ε) (s : σ) : List (ProcEvent ε) × σ :=
  match client.disconnect s with
  | (res, s1) => ([.store (.disconnect res)], s1)

/-- Function `main`: the routes are registered, `app.Listen("0.0.0.0:8080")` serves the
`inbound` requests, and the deferred `disconnect` runs when it returns. -/
def main {σ ε : Type} (client : Store σ ε) (inbound : List (Endpoint × Request)) (s : σ) :
    List (ProcEvent ε) × σ :=
  let served := serveAll client inbound s
  let closed := disconnect client served.2
  (ProcEvent.listen "0.0.0.0:8080" registered :: served.1.map ProcEvent.store ++ closed.1,
    closed.2)

/-- The process: `init`, then `main`. -/
def process {σ ε : Type} (client : Store σ ε) (inbound : List (Endpoint × Request)) (s : σ) :
    List (ProcEvent ε) × σ :=
  ((init client s).1 ++ (main client inbound (init client s).2).1,
    (main client inbound (init client s).2).2)

/-- Whether an event is the start of listening. -/
def ProcEvent.isListen {ε : Type} : ProcEvent ε → Bool
  | .listen _ _ => true
  | .store _ => false

/-! ## `Run` -/

/-- The `error` values `Run` can return: one handed up from the client, or the
one it makes with `fmt.Errorf`. -/
inductive RunError (ε : Type) where
  | store (e : ε)
  | errorf (msg : String)
deriving DecidableEq, Repr

/-- How `Run` ends: it returns (`none` for `nil`), or the deferred function
panics with the error of `Disconnect`. -/
inductive RunOutcome (ε : Type) where
  | returned (err : Option (RunError ε))
  | panicked (e : ε)
deriving DecidableEq, Repr

/-- The result of `Run`: how it ended, the client calls it made, the store state. -/
structure Ran (σ ε : Type) where
  outcome : RunOutcome ε
  trace : List (StoreEvent ε)
  store : σ

/-- The deferred function of `Run`: `Disconnect`, and a panic if it fails. -/
def Run.deferred {σ ε : Type} (client : Store σ ε) (ret : Option (RunError ε))
    (trace : List (StoreEvent ε)) (s : σ) : Ran σ ε :=
  match client.disconnect s with
  | (some err, s1) =>
    { outcome := .panicked err, trace := trace ++ [.disconnect (some err)], store := s1 }
  | (none, s1) =>
    { outcome := .returned ret, trace := trace ++ [.disconnect none], store := s1 }

/-- Function `Run`, on a new client in state `s`.  The two `fmt.Printf` lines write to
standard output only and are left out. -/
def Run {σ ε : Type} (client : Store σ ε) (s : σ) : Ran σ ε :=
  match client.connect s with
  | (some err, s1) =>
    { outcome := .returned (some (.store err)), trace := [.connect (some err)], store := s1 }
  | (none, s1) =>
    match client.createOne "Hi from Prisma!" true
        "Prisma is a database toolkit and makes databases easy." s1 with
    | (.error err, s2) =>
      Run.deferred client (some (.store err))
        [.connect none,
          .createOne "Hi from Prisma!" true
            "Prisma is a database toolkit and makes databases easy." (.error err)] s2
    | (.ok createdPost, s2) =>
      match client.findUnique createdPost.id s2 with
      | (.error err, s3) =>
        Run.deferred client (some (.store err))
          [.connect none,
            .createOne "Hi from Prisma!" true
              "Prisma is a database toolkit and makes databases easy." (.ok createdPost),
            .findUnique createdPost.id (.error err)] s3
      | (.ok post, s3) =>
        match post.desc with
        | none =>
          Run.deferred client (some (.errorf "post's description is null"))
            [.connect none,
              .createOne "Hi from Prisma!" true
                "Prisma is a database toolkit and makes databases easy." (.ok createdPost),
              .findUnique createdPost.id (.ok post)] s3
        | some _desc =>
          Run.deferred client none
            [.connect none,
              .createOne "Hi from Prisma!" true
                "Prisma is a database toolkit and makes databases easy." (.ok createdPost),
              .findUnique createdPost.id (.ok post)] s3

/-! ## A reference store -/

/-- The error kinds of the store contract. -/
inductive StoreError where
  | notFound
  | storeFailure
deriving DecidableEq, Repr

/-- Modelled from the spec: the state of a store that follows the ResourceStore
contract.  `posts` are the live Posts in creation order, `nextId` numbers the
ids handed out so far, `connected` tells whether `Connect` succeeded, and
`faults` scripts the failures of the persistence layer: each call consumes the
head, and `true` makes that call fail with `storeFailure`. -/
structure MemState where
  connected : Bool
  nextId : Nat
  posts : List Post
  faults : List Bool
deriving DecidableEq, Repr

/-- Consumes the head of the fault script: whether this call fails. -/
def MemState.tick (s : MemState) : Bool × MemState :=
  match s.faults with
  | [] => (false, s)
  | f :: rest => (f, { s with faults := rest })

/-- Modelled from the spec: connecting succeeds unless the script says it fails. -/
def MemState.connect (s : MemState) : Option StoreError × MemState :=
  if s.tick.1 then (some .storeFailure, s.tick.2)
  else (none, { s.tick.2 with connected := true })

/-- Modelled from the spec: disconnecting releases the connection. -/
def MemState.disconnect (s : MemState) : Option StoreError × MemState :=
  (none, { s with connected := false })

/-- Modelled from the spec: `create(fields) -> Post | Error(StoreFailure)`; the
new Post gets the next unused id and becomes the last live Post. -/
def MemState.createOne (title : String) (published : Bool) (desc : String) (s : MemState) :
    Except StoreError Post × MemState :=
  if s.tick.1 || !s.connected then (.error .storeFailure, s.tick.2)
  else
    (.ok { id := toString s.nextId, title := title, desc := some desc, published := published },
      { s.tick.2 with
        nextId := s.nextId + 1
        posts := s.posts ++
          [{ id := toString s.nextId, title := title, desc := some desc,
             published := published }] })

/-- Modelled from the spec: `findAll() -> sequence of Post | Error(StoreFailure)`. -/
def MemState.findMany (s : MemState) : Except StoreError (List Post) × MemState :=
  if s.tick.1 || !s.connected then (.error .storeFailure, s.tick.2)
  else (.ok s.posts, s.tick.2)

/-- Modelled from the spec: `findByID(id) -> Post | Error(NotFound | StoreFailure)`. -/
def MemState.findUnique (id : String) (s : MemState) : Except StoreError Post × MemState :=
  if s.tick.1 || !s.connected then (.error .storeFailure, s.tick.2)
  else
    match s.posts.find? (fun p => p.id == id) with
    | none => (.error .notFound, s.tick.2)
    | some p => (.ok p, s.tick.2)

/-- Modelled from the spec: `deleteByID(id) -> Post | Error(NotFound | StoreFailure)`;
the Post with that id stops being live. -/
def MemState.deleteUnique (id : String) (s : MemState) : Except StoreError Post × MemState :=
  if s.tick.1 || !s.connected then (.error .storeFailure, s.tick.2)
  else
    match s.posts.find? (fun p => p.id == id) with
    | none => (.error .notFound, s.tick.2)
    | some p => (.ok p, { s.tick.2 with posts := s.posts.filter (fun q => q.id != id) })

/-- The reference store as a client. -/
def memStore : Store MemState StoreError :=
  { connect := MemState.connect
    disconnect := MemState.disconnect
    createOne := MemState.createOne
    findMany := MemState.findMany
    findUnique := MemState.findUnique
    deleteUnique := MemState.deleteUnique }

/-- An empty store, connected, that never fails. -/
def MemState.empty : MemState := { connected := true, nextId := 0, posts := [], faults := [] }

/-- Whether an event is a create that succeeded. -/
def StoreEvent.isCreated {ε : Type} : StoreEvent ε → Bool
  | .createOne _ _ _ (.ok _) => true
  | _ => false

/-- Whether an event is a delete that succeeded. -/
def StoreEvent.isDeleted {ε : Type} : StoreEvent ε → Bool
  | .deleteUnique _ (.ok _) => true
  | _ => false

/-- The id of the Post a successful delete returned. -/
def StoreEvent.deletedId {ε : Type} : StoreEvent ε → Option String
  | .deleteUnique _ (.ok p) => some p.id
  | _ => none

/-- The number of successful creates in a trace. -/
def createdCount {ε : Type} (tr : List (StoreEvent ε)) : Nat := tr.countP StoreEvent.isCreated

/-- The number of successful deletes in a trace. -/
def deletedCount {ε : Type} (tr : List (StoreEvent ε)) : Nat := tr.countP StoreEvent.isDeleted

/-- The ids of the Posts the successful deletes of a trace returned. -/
def deletedIds {ε : Type} (tr : List (StoreEvent ε)) : List String :=
  tr.filterMap StoreEvent.deletedId

/-- A request for the route `/delete-post/:id` with the given parameter value. -/
def deleteRequest (id : String) : Request :=
  { method := "GET", path := "/delete-post/" ++ id, params := [("id", id)], query := [],
    body := "" }

/-- The value of a decimal digit string, most significant digit first, continuing
from `acc`; it reads back the ids the reference store hands out. -/
def decimalValue (acc : Nat) (ds : List Char) : Nat :=
  ds.foldl (fun a c => a * 10 + (c.toNat - 48)) acc

/-- A request for the health check. -/
def rootRequest : Request :=
  { method := "GET", path := "/", params := [], query := [], body := "" }

/-- The Post the reference store creates first for `CreatePost`. -/
def samplePost : Post :=
  { id := "0", title := "Hi from Lutfii!",
    desc := some " is a database toolkit and makes databases easy.", published := true }

/-- A connected store holding `samplePost`. -/
def MemState.withSample : MemState :=
  { connected := true, nextId := 1, posts := [samplePost], faults := [] }

/-- A connected, empty store whose next call fails. -/
def MemState.failing : MemState :=
  { connected := true, nextId := 0, posts := [], faults := [true] }

/-- The store of a new client: not connected yet. -/
def MemState.newClient : MemState :=
  { connected := false, nextId := 0, posts := [], faults := [] }

/-- The store of a new client whose `Connect` will fail. -/
def MemState.unreachable : MemState :=
  { connected := false, nextId := 0, posts := [], faults := [true] }

/-- Two creates, the delete of the first Post, and a repeated delete of it. -/
def sampleRequests : List (Endpoint × Request) :=
  [(.createPost, rootRequest), (.createPost, rootRequest), (.deletePost, deleteRequest "0"),
    (.deletePost, deleteRequest "0"), (.healthCheck, rootRequest)]

/-- The invariant of the reference store along a trace of client calls: every
live Post carries an id handed out earlier, live ids are pairwise distinct, the
live Posts are the created ones less the deleted ones, and the id of a deleted
Post was handed out earlier, is not live, and was deleted only once. -/
def Consistent (s : MemState) (tr : List (StoreEvent StoreError)) : Prop :=
  (∀ p ∈ s.posts, ∃ k, k < s.nextId ∧ p.id = toString k) ∧
  (s.posts.map Post.id).Nodup ∧
  s.posts.length + deletedCount tr = createdCount tr ∧
  (∀ i ∈ deletedIds tr, (∃ k, k < s.nextId ∧ i = toString k) ∧ i ∉ s.posts.map Post.id) ∧
  (deletedIds tr).Nodup

/-! ## Lemmas on the encoding and on ids -/

theorem Post.toJSON_injective : Function.Injective Post.toJSON := by
  intro p q h
  cases p with
  | mk i t d b =>
    cases q with
    | mk i2 t2 d2 b2 =>
      cases d <;> cases d2 <;> simp_all [Post.toJSON]

theorem digitChar_value : ∀ k, k < 10 → (Nat.digitChar k).toNat - 48 = k := by decide

theorem decimalValue_toDigitsCore (fuel : Nat) :
    ∀ n ds, n < fuel →
      decimalValue 0 (Nat.toDigitsCore 10 fuel n ds) = decimalValue n ds := by
  induction fuel with
  | zero => intro n ds h; omega
  | succ f ih =>
    intro n ds h
    have hd : (Nat.digitChar (n % 10)).toNat - 48 = n % 10 :=
      digitChar_value _ (Nat.mod_lt _ (by decide))
    by_cases h0 : n / 10 = 0
    · have hn : n % 10 = n := Nat.mod_eq_of_lt (by omega)
      rw [hn] at hd
      simp [Nat.toDigitsCore, h0, decimalValue, hn, hd]
    · have hlt : n / 10 < f := by omega
      have := ih (n / 10) (Nat.digitChar (n % 10) :: ds) hlt
      simp only [Nat.toDigitsCore, h0, if_false]
      rw [this]
      simp only [decimalValue, List.foldl_cons, hd]
      congr 1
      omega

theorem toString_nat_injective {a b : Nat} (h : toString a = toString b) : a = b := by
  have h1 : Nat.toDigits 10 a = Nat.toDigits 10 b := by
    have : (Nat.toDigits 10 a).asString = (Nat.toDigits 10 b).asString := h
    exact congrArg String.data this
  have ha := decimalValue_toDigitsCore (a + 1) a [] (Nat.lt_succ_self a)
  have hb := decimalValue_toDigitsCore (b + 1) b [] (Nat.lt_succ_self b)
  simp only [Nat.toDigits] at h1
  rw [h1, hb] at ha
  simpa [decimalValue] using ha.symm

/-! ## The handlers on success -/

/-- C1: for every inbound request and every store state, `HealthCheck` makes no
store call, leaves the store as it is, and responds with status 200 and the body
`\x7b"data":"Server is up and running"\x7d`, the encoding of the object with the
single key `data`; any two requests get the same response. -/
theorem healthCheck_fixed_response {σ ε : Type} (client : Store σ ε) (req req2 : Request)
    (s s2 : σ) :
    (HealthCheck client (Ctx.acquire req) s).trace = [] ∧
    (HealthCheck client (Ctx.acquire req) s).store = s ∧
    (HealthCheck client (Ctx.acquire req) s).response.status = 200 ∧
    (HealthCheck client (Ctx.acquire req) s).response.body =
      (JVal.obj [("data", .str "Server is up and running")]).render ∧
    (HealthCheck client (Ctx.acquire req) s).response.body =
      "\x7b\"data\":\"Server is up and running\"\x7d" ∧
    (HealthCheck client (Ctx.acquire req) s).response =
      (HealthCheck client (Ctx.acquire req2) s2).response := by
  refine ⟨rfl, rfl, rfl, rfl, ?_, rfl⟩
  show healthMap.render = _
  decide

/-- C4: for every request whose path parameter `id` has value `sid`, `DeletePost`
makes exactly one store call, the delete of the Post with id `sid`, and hands on
the state that call left; when the store returns the deleted Post `p`, the
response has status 200 and its body is the encoding of `p` and of no other Post. -/
theorem deletePost_one_delete {σ ε : Type} (client : Store σ ε) (req : Request) (s : σ)
    (sid : String) (hid : (Ctx.acquire req).Params "id" = sid) :
    (DeletePost client (Ctx.acquire req) s).trace.map StoreEvent.call = [.deleteUnique sid] ∧
    (DeletePost client (Ctx.acquire req) s).trace =
      [.deleteUnique sid (client.deleteUnique sid s).1] ∧
    (DeletePost client (Ctx.acquire req) s).store = (client.deleteUnique sid s).2 ∧
    ∀ p, (client.deleteUnique sid s).1 = .ok p →
      (DeletePost client (Ctx.acquire req) s).response.status = 200 ∧
      (DeletePost client (Ctx.acquire req) s).response.body = p.toJSON.render ∧
      ∀ q : Post, q.toJSON = p.toJSON → q = p := by
  subst hid
  unfold DeletePost
  rcases hres : client.deleteUnique ((Ctx.acquire req).Params "id") s with ⟨res, s1⟩
  cases res with
  | error e => simp [StoreEvent.call]
  | ok p0 =>
    refine ⟨by simp [StoreEvent.call], rfl, rfl, ?_⟩
    intro p hp
    have hp0 : p0 = p := by simpa using hp
    subst hp0
    exact ⟨rfl, rfl, fun q hq => Post.toJSON_injective hq⟩

/-- C5: for every request, `GetPost` makes exactly one store call, a find-many
without filter, and hands on the state that call left; when the store returns
the Posts `ps`, the response has status 200 and its body is the encoding of the
array of their objects: as many elements as `ps`, the i-th the object of the
i-th Post, and no other sequence of Posts has that array. -/
theorem getPost_one_findMany {σ ε : Type} (client : Store σ ε) (req : Request) (s : σ) :
    (GetPost client (Ctx.acquire req) s).trace.map StoreEvent.call = [.findMany] ∧
    (GetPost client (Ctx.acquire req) s).trace = [.findMany (client.findMany s).1] ∧
    (GetPost client (Ctx.acquire req) s).store = (client.findMany s).2 ∧
    ∀ ps, (client.findMany s).1 = .ok ps →
      (GetPost client (Ctx.acquire req) s).response.status = 200 ∧
      (GetPost client (Ctx.acquire req) s).response.body =
        (JVal.arr (ps.map Post.toJSON)).render ∧
      (ps.map Post.toJSON).length = ps.length ∧
      (∀ i : Nat, (ps.map Post.toJSON)[i]? = (ps[i]?).map Post.toJSON) ∧
      ∀ qs : List Post, qs.map Post.toJSON = ps.map Post.toJSON → qs = ps := by
  unfold GetPost
  rcases hres : client.findMany s with ⟨res, s1⟩
  cases res with
  | error e => simp [StoreEvent.call]
  | ok ps0 =>
    refine ⟨by simp [StoreEvent.call], rfl, rfl, ?_⟩
    intro ps hp
    have hp0 : ps0 = ps := by simpa using hp
    subst hp0
    refine ⟨rfl, rfl, by simp, fun i => by simp, fun qs hq => ?_⟩
    exact (List.map_injective_iff.2 Post.toJSON_injective) hq

/-- C6: for every request, `CreatePost` makes exactly one store call, the create
with title "Hi from Lutfii!", published true and description
" is a database toolkit and makes databases easy."; the call is the same for any
two requests and any two store states, and two requests served in the same store
state get the same response; when the store returns the created Post
`p`, the response has status 200 and its body is the encoding of `p` and of no
other Post. -/
theorem createPost_fixed_create {σ ε : Type} (client : Store σ ε) (req req2 : Request)
    (s s2 : σ) :
    (CreatePost client (Ctx.acquire req) s).trace.map StoreEvent.call =
      [.createOne "Hi from Lutfii!" true " is a database toolkit and makes databases easy."] ∧
    (CreatePost client (Ctx.acquire req) s).trace =
      [.createOne "Hi from Lutfii!" true " is a database toolkit and makes databases easy."
        (client.createOne "Hi from Lutfii!" true
          " is a database toolkit and makes databases easy." s).1] ∧
    (CreatePost client (Ctx.acquire req) s).store =
      (client.createOne "Hi from Lutfii!" true
        " is a database toolkit and makes databases easy." s).2 ∧
    (CreatePost client (Ctx.acquire req2) s2).trace.map StoreEvent.call =
      (CreatePost client (Ctx.acquire req) s).trace.map StoreEvent.call ∧
    (CreatePost client (Ctx.acquire req2) s).trace =
      (CreatePost client (Ctx.acquire req) s).trace ∧
    (CreatePost client (Ctx.acquire req2) s).response =
      (CreatePost client (Ctx.acquire req) s).response ∧
    ∀ p, (client.createOne "Hi from Lutfii!" true
        " is a database toolkit and makes databases easy." s).1 = .ok p →
      (CreatePost client (Ctx.acquire req) s).response.status = 200 ∧
      (CreatePost client (Ctx.acquire req) s).response.body = p.toJSON.render ∧
      ∀ q : Post, q.toJSON = p.toJSON → q = p := by
  have hcall : ∀ (r : Request) (t : σ),
      (CreatePost client (Ctx.acquire r) t).trace.map StoreEvent.call =
        [.createOne "Hi from Lutfii!" true
          " is a database toolkit and makes databases easy."] := by
    intro r t
    unfold CreatePost
    rcases client.createOne "Hi from Lutfii!" true
      " is a database toolkit and makes databases easy." t with ⟨res, t1⟩
    cases res <;> simp [StoreEvent.call]
  have htrace : ∀ (r : Request),
      (CreatePost client (Ctx.acquire r) s).trace =
        [.createOne "Hi from Lutfii!" true " is a database toolkit and makes databases easy."
          (client.createOne "Hi from Lutfii!" true
            " is a database toolkit and makes databases easy." s).1] := by
    intro r
    unfold CreatePost
    rcases client.createOne "Hi from Lutfii!" true
      " is a database toolkit and makes databases easy." s with ⟨res, t1⟩
    cases res <;> rfl
  refine ⟨hcall req s, htrace req, ?_, ?_, ?_, ?_, ?_⟩
  · unfold CreatePost
    rcases client.createOne "Hi from Lutfii!" true
      " is a database toolkit and makes databases easy." s with ⟨res, t1⟩
    cases res <;> rfl
  · rw [hcall req2 s2, hcall req s]
  · rw [htrace req2, htrace req]
  · unfold CreatePost
    rcases client.createOne "Hi from Lutfii!" true
      " is a database toolkit and makes databases easy." s with ⟨res, t1⟩
    cases res <;> rfl
  · intro p hp
    unfold CreatePost
    rcases hres : client.createOne "Hi from Lutfii!" true
      " is a database toolkit and makes databases easy." s with ⟨res, t1⟩
    rw [hres] at hp
    cases res with
    | error e => simp at hp
    | ok p0 =>
      have hp0 : p0 = p := by simpa using hp
      subst hp0
      exact ⟨rfl, rfl, fun q hq => Post.toJSON_injective hq⟩

/-! ## `Run` -/

theorem Run.deferred_outcome {σ ε : Type} (client : Store σ ε)
    (hd : ∀ t, (client.disconnect t).1 = none) (ret : Option (RunError ε))
    (tr : List (StoreEvent ε)) (s : σ) :
    (Run.deferred client ret tr s).outcome = .returned ret ∧
    (Run.deferred client ret tr s).trace = tr ++ [.disconnect none] := by
  unfold Run.deferred
  have h := hd s
  rcases hres : client.disconnect s with ⟨r, s1⟩
  rw [hres] at h
  simp only at h
  subst h
  exact ⟨rfl, rfl⟩

/-- C10: assuming `Disconnect` does not fail, `Run` returns nil exactly when
`Connect` succeeds, the create of the fixed Post succeeds, the find-unique by the
id of the Post just created succeeds and the found description is not null.
Otherwise it returns the first error met in that order (the error made from
"post's description is null" for a null description), and the calls it made are
exactly those up to the failing one, followed by one `Disconnect` when `Connect`
succeeded and by nothing when `Connect` failed. -/
theorem run_outcome_and_calls {σ ε : Type} (client : Store σ ε) (s : σ)
    (hd : ∀ t, (client.disconnect t).1 = none) :
    ((Run client s).outcome = .returned none ↔
      (client.connect s).1 = none ∧
      ∃ p, (client.createOne "Hi from Prisma!" true "Prisma is a database toolkit and makes databases easy." (client.connect s).2).1 = .ok p ∧
        ∃ q, (client.findUnique p.id (client.createOne "Hi from Prisma!" true "Prisma is a database toolkit and makes databases easy." (client.connect s).2).2).1 = .ok q ∧
          q.desc ≠ none) ∧
    (∀ e, (client.connect s).1 = some e →
      (Run client s).outcome = .returned (some (.store e)) ∧
      (Run client s).trace.map StoreEvent.call = [.connect]) ∧
    (∀ e, (client.connect s).1 = none →
      (client.createOne "Hi from Prisma!" true "Prisma is a database toolkit and makes databases easy." (client.connect s).2).1 = .error e →
      (Run client s).outcome = .returned (some (.store e)) ∧
      (Run client s).trace.map StoreEvent.call =
        [.connect, .createOne "Hi from Prisma!" true "Prisma is a database toolkit and makes databases easy.", .disconnect]) ∧
    (∀ p e, (client.connect s).1 = none →
      (client.createOne "Hi from Prisma!" true "Prisma is a database toolkit and makes databases easy." (client.connect s).2).1 = .ok p →
      (client.findUnique p.id (client.createOne "Hi from Prisma!" true "Prisma is a database toolkit and makes databases easy." (client.connect s).2).2).1 = .error e →
      (Run client s).outcome = .returned (some (.store e)) ∧
      (Run client s).trace.map StoreEvent.call =
        [.connect, .createOne "Hi from Prisma!" true "Prisma is a database toolkit and makes databases easy.", .findUnique p.id, .disconnect]) ∧
    (∀ p q, (client.connect s).1 = none →
      (client.createOne "Hi from Prisma!" true "Prisma is a database toolkit and makes databases easy." (client.connect s).2).1 = .ok p →
      (client.findUnique p.id (client.createOne "Hi from Prisma!" true "Prisma is a database toolkit and makes databases easy." (client.connect s).2).2).1 = .ok q →
      (Run client s).trace.map StoreEvent.call =
        [.connect, .createOne "Hi from Prisma!" true "Prisma is a database toolkit and makes databases easy.", .findUnique p.id, .disconnect] ∧
      (q.desc = none →
        (Run client s).outcome = .returned (some (.errorf "post's description is null"))) ∧
      (q.desc ≠ none → (Run client s).outcome = .returned none)) := by
  unfold Run
  rcases hc : client.connect s with ⟨rc, s1⟩
  cases rc with
  | some e0 => simp [StoreEvent.call]
  | none =>
    simp only []
    rcases hcr : client.createOne "Hi from Prisma!" true "Prisma is a database toolkit and makes databases easy." s1 with ⟨rcr, s2⟩
    cases rcr with
    | error e1 =>
      simp [Run.deferred_outcome client hd, StoreEvent.call]
    | ok p0 =>
      simp only []
      rcases hf : client.findUnique p0.id s2 with ⟨rf, s3⟩
      cases rf with
      | error e2 =>
        simp [Run.deferred_outcome client hd, StoreEvent.call, hf]
        constructor <;> intro p x hp <;> subst hp <;> simp_all
      | ok q0 =>
        simp only []
        cases hq : q0.desc with
        | none =>
          simp [Run.deferred_outcome client hd, StoreEvent.call, hf, hq]
          constructor <;> intro p x hp <;> subst hp <;> simp_all
          intro hx
          subst hx
          simp [hq]
        | some d =>
          simp [Run.deferred_outcome client hd, StoreEvent.call, hf, hq]
          constructor <;> intro p x hp <;> subst hp <;> simp_all
          intro hx
          subst hx
          simp [hq]

/-! ## The reference store keeps its invariant under the handlers -/

theorem Consistent.frame {s s1 : MemState} {tr t : List (StoreEvent StoreError)}
    (hp : s1.posts = s.posts) (hn : s1.nextId = s.nextId)
    (hc : createdCount t = 0) (hdc : deletedCount t = 0) (hdi : deletedIds t = [])
    (h : Consistent s tr) : Consistent s1 (tr ++ t) := by
  obtain ⟨h1, h2, h3, h4, h5⟩ := h
  unfold Consistent
  simp only [createdCount, deletedCount, deletedIds] at *
  rw [hp, hn, List.countP_append, List.countP_append, List.filterMap_append, hc, hdc, hdi]
  simp only [List.append_nil, Nat.add_zero]
  exact ⟨h1, h2, h3, h4, h5⟩

theorem length_filter_of_nodup (x : String) :
    ∀ l : List Post, (l.map Post.id).Nodup → (∃ p ∈ l, p.id = x) →
      (l.filter (fun q => q.id != x)).length + 1 = l.length := by
  intro l
  induction l with
  | nil => intro _ h; obtain ⟨p, hp, _⟩ := h; simp at hp
  | cons a l ih =>
    intro hnd hex
    rw [List.map_cons, List.nodup_cons] at hnd
    by_cases ha : a.id = x
    · have hself : l.filter (fun q => q.id != x) = l := by
        rw [List.filter_eq_self]
        intro q hq
        have : q.id ≠ x := by
          intro hqx
          exact hnd.1 (by rw [ha, ← hqx]; exact List.mem_map_of_mem _ hq)
        simpa using this
      simp [List.filter_cons, ha, hself]
    · have hex2 : ∃ p ∈ l, p.id = x := by
        obtain ⟨p, hp, hpx⟩ := hex
        rcases List.mem_cons.1 hp with rfl | hp
        · exact absurd hpx ha
        · exact ⟨p, hp, hpx⟩
      have := ih hnd.2 hex2
      simp [List.filter_cons, ha, this]

theorem Consistent.created {s : MemState} {tr : List (StoreEvent StoreError)}
    (title desc : String) (published : Bool) (fs : List Bool) (c : Bool)
    (h : Consistent s tr) :
    Consistent
      { connected := c, nextId := s.nextId + 1,
        posts := s.posts ++ [{ id := toString s.nextId, title := title, desc := some desc,
                               published := published }],
        faults := fs }
      (tr ++ [.createOne title published desc
        (.ok { id := toString s.nextId, title := title, desc := some desc,
               published := published })]) := by
  obtain ⟨h1, h2, h3, h4, h5⟩ := h
  have hfresh : toString s.nextId ∉ s.posts.map Post.id := by
    intro hmem
    obtain ⟨p, hp, hpid⟩ := List.mem_map.1 hmem
    obtain ⟨k, hk, hpk⟩ := h1 p hp
    have := toString_nat_injective (hpk.symm.trans hpid)
    omega
  unfold Consistent
  simp only [createdCount, deletedCount, deletedIds] at *
  refine ⟨?_, ?_, ?_, ?_, ?_⟩
  · intro p hp
    rcases List.mem_append.1 hp with hp | hp
    · obtain ⟨k, hk, hpk⟩ := h1 p hp
      exact ⟨k, by omega, hpk⟩
    · simp only [List.mem_singleton] at hp
      subst hp
      exact ⟨s.nextId, by omega, rfl⟩
  · rw [List.map_append, List.nodup_append]
    refine ⟨h2, by simp, ?_⟩
    intro a ha hb
    simp only [List.map_cons, List.map_nil, List.mem_singleton] at hb
    subst hb
    exact hfresh ha
  · simp [List.countP_append, StoreEvent.isCreated, StoreEvent.isDeleted]
    omega
  · intro i hi
    have hi2 : i ∈ List.filterMap StoreEvent.deletedId tr := by
      simpa [List.filterMap_append, StoreEvent.deletedId] using hi
    obtain ⟨⟨k, hk, hik⟩, hnot⟩ := h4 i hi2
    refine ⟨⟨k, by omega, hik⟩, ?_⟩
    rw [List.map_append, List.mem_append]
    rintro (hm | hm)
    · exact hnot hm
    · simp only [List.map_cons, List.map_nil, List.mem_singleton] at hm
      rw [hik] at hm
      have := toString_nat_injective hm
      omega
  · simpa [List.filterMap_append, StoreEvent.deletedId] using h5

theorem Consistent.deleted {s : MemState} {tr : List (StoreEvent StoreError)}
    (x : String) (p : Post) (fs : List Bool) (c : Bool)
    (hfind : s.posts.find? (fun q => q.id == x) = some p)
    (h : Consistent s tr) :
    Consistent
      { connected := c, nextId := s.nextId,
        posts := s.posts.filter (fun q => q.id != x), faults := fs }
      (tr ++ [.deleteUnique x (.ok p)]) := by
  obtain ⟨h1, h2, h3, h4, h5⟩ := h
  have hmem : p ∈ s.posts := List.mem_of_find?_eq_some hfind
  have hpx : p.id = x := by
    have := List.find?_some hfind
    simpa using this
  have hlen := length_filter_of_nodup x s.posts h2 ⟨p, hmem, hpx⟩
  unfold Consistent
  simp only [createdCount, deletedCount, deletedIds] at *
  have hids : List.filterMap StoreEvent.deletedId (tr ++ [.deleteUnique x (.ok p)]) =
      List.filterMap StoreEvent.deletedId tr ++ [x] := by
    simp [List.filterMap_append, StoreEvent.deletedId, hpx]
  have hgone : x ∉ (s.posts.filter (fun q => q.id != x)).map Post.id := by
    intro hm
    obtain ⟨q, hq, hqx⟩ := List.mem_map.1 hm
    have := (List.mem_filter.1 hq).2
    simp [hqx] at this
  refine ⟨?_, ?_, ?_, ?_, ?_⟩
  · intro q hq
    exact h1 q (List.mem_filter.1 hq).1
  · exact (List.Nodup.sublist ((List.filter_sublist _).map Post.id) h2)
  · simp [List.countP_append, StoreEvent.isCreated, StoreEvent.isDeleted]
    omega
  · intro i hi
    rw [hids, List.mem_append] at hi
    rcases hi with hi | hi
    · obtain ⟨hk, hnot⟩ := h4 i hi
      refine ⟨hk, ?_⟩
      intro hm
      obtain ⟨q, hq, hqi⟩ := List.mem_map.1 hm
      exact hnot (List.mem_map.2 ⟨q, (List.mem_filter.1 hq).1, hqi⟩)
    · simp only [List.mem_singleton] at hi
      subst hi
      obtain ⟨k, hk, hpk⟩ := h1 p hmem
      exact ⟨⟨k, hk, by rw [← hpx]; exact hpk⟩, hgone⟩
  · rw [hids, List.nodup_append]
    refine ⟨h5, by simp, ?_⟩
    intro a ha hb
    simp only [List.mem_singleton] at hb
    subst hb
    exact (h4 a ha).2 (by rw [← hpx]; exact List.mem_map_of_mem _ hmem)

theorem MemState.tick_posts (s : MemState) : s.tick.2.posts = s.posts := by
  unfold MemState.tick
  cases s.faults <;> rfl

theorem MemState.tick_nextId (s : MemState) : s.tick.2.nextId = s.nextId := by
  unfold MemState.tick
  cases s.faults <;> rfl

theorem serve_consistent (e : Endpoint) (req : Request) {s : MemState}
    {tr : List (StoreEvent StoreError)} (h : Consistent s tr) :
    Consistent (serve memStore e req s).store (tr ++ (serve memStore e req s).trace) := by
  cases e with
  | healthCheck =>
    simpa [serve, Endpoint.handler, HealthCheck] using h
  | createPost =>
    simp only [serve, Endpoint.handler, CreatePost, memStore, MemState.createOne]
    by_cases hc : (s.tick.1 || !s.connected) = true
    · simp only [hc, if_true]
      exact Consistent.frame s.tick_posts s.tick_nextId rfl rfl rfl h
    · simp only [hc]
      exact Consistent.created _ _ _ _ _ h
  | getPost =>
    simp only [serve, Endpoint.handler, GetPost, memStore, MemState.findMany]
    by_cases hc : (s.tick.1 || !s.connected) = true
    · simp only [hc, if_true]
      exact Consistent.frame s.tick_posts s.tick_nextId rfl rfl rfl h
    · simp only [hc]
      exact Consistent.frame s.tick_posts s.tick_nextId rfl rfl rfl h
  | deletePost =>
    simp only [serve, Endpoint.handler, DeletePost, memStore, MemState.deleteUnique]
    by_cases hc : (s.tick.1 || !s.connected) = true
    · simp only [hc, if_true]
      exact Consistent.frame s.tick_posts s.tick_nextId rfl rfl rfl h
    · simp only [hc]
      cases hf : s.posts.find? (fun p => p.id == (Ctx.acquire req).Params "id") with
      | none =>
        simp only []
        exact Consistent.frame s.tick_posts s.tick_nextId rfl rfl rfl h
      | some p =>
        simp only []
        have := Consistent.deleted _ p s.tick.2.faults s.tick.2.connected hf h
        rw [← s.tick_nextId] at this
        exact this

theorem serveAll_consistent (reqs : List (Endpoint × Request)) :
    ∀ (s : MemState) (tr : List (StoreEvent StoreError)), Consistent s tr →
      Consistent (serveAll memStore reqs s).2 (tr ++ (serveAll memStore reqs s).1) := by
  induction reqs with
  | nil => intro s tr h; simpa [serveAll] using h
  | cons r rest ih =>
    intro s tr h
    obtain ⟨e, req⟩ := r
    have h1 := serve_consistent e req h
    have h2 := ih _ _ h1
    simpa [serveAll, List.append_assoc] using h2

theorem Consistent.initial (s : MemState) (h : s.posts = []) : Consistent s [] := by
  unfold Consistent
  simp [h, createdCount, deletedCount, deletedIds]

theorem memStore_findMany_ok {s : MemState} {ps : List Post}
    (h : (memStore.findMany s).1 = .ok ps) : ps = s.posts := by
  have h2 : (MemState.findMany s).1 = .ok ps := h
  unfold MemState.findMany at h2
  by_cases hc : (s.tick.1 || !s.connected) = true
  · simp [hc] at h2
  · simp only [hc] at h2
    simpa using h2.symm

theorem GetPost_body_of_ok {σ ε : Type} (client : Store σ ε) (c : Ctx) (s : σ) (ps : List Post)
    (h : (client.findMany s).1 = .ok ps) :
    (GetPost client c s).response.body = (JVal.arr (ps.map Post.toJSON)).render := by
  unfold GetPost
  rcases hres : client.findMany s with ⟨res, s1⟩
  rw [hres] at h
  cases res with
  | error e => simp at h
  | ok ps0 =>
    have hp0 : ps0 = ps := by simpa using h
    subst hp0
    rfl

/-- C8: starting from a store without Posts, after any sequence of requests to the
handlers in which N creates and M deletes succeeded, a following `GetPost` whose
find-many succeeds responds with the array of the Posts `ps` it found, and `ps`
has exactly N - M elements (M never exceeds N), with pairwise distinct ids, none
of them the id of a successfully deleted Post; no id was deleted twice. -/
theorem getPost_after_creates_and_deletes (reqs : List (Endpoint × Request)) (s0 : MemState)
    (req : Request) (ps : List Post) (hempty : s0.posts = [])
    (hget : (memStore.findMany (serveAll memStore reqs s0).2).1 = .ok ps) :
    (GetPost memStore (Ctx.acquire req) (serveAll memStore reqs s0).2).response.body =
      (JVal.arr (ps.map Post.toJSON)).render ∧
    ps.length = createdCount (serveAll memStore reqs s0).1 -
      deletedCount (serveAll memStore reqs s0).1 ∧
    deletedCount (serveAll memStore reqs s0).1 ≤ createdCount (serveAll memStore reqs s0).1 ∧
    (ps.map Post.id).Nodup ∧
    (∀ i ∈ deletedIds (serveAll memStore reqs s0).1, i ∉ ps.map Post.id) ∧
    (deletedIds (serveAll memStore reqs s0).1).Nodup := by
  have hcons := serveAll_consistent reqs s0 [] (Consistent.initial s0 hempty)
  rw [List.nil_append] at hcons
  obtain ⟨_, h2, h3, h4, h5⟩ := hcons
  have hps : ps = (serveAll memStore reqs s0).2.posts := memStore_findMany_ok hget
  refine ⟨?_, ?_, ?_, ?_, ?_, h5⟩
  · exact GetPost_body_of_ok memStore _ _ ps hget
  · rw [hps]; omega
  · omega
  · rw [hps]; exact h2
  · intro i hi
    rw [hps]
    exact (h4 i hi).2

/-! ## The handlers on a store error -/

/-- C2: on a store error none of `CreatePost`, `GetPost`, `DeletePost` reports
the error.  Each of them returns nil on every path and leaves the status of a
fresh context at 200; on the store whose next call fails, each makes its call,
gets `storeFailure`, and the response is status 200 with an empty body. -/
theorem handlers_swallow_store_error :
    (∀ (σ ε : Type) (client : Store σ ε) (req : Request) (s : σ),
      (CreatePost client (Ctx.acquire req) s).ret = none ∧
      (GetPost client (Ctx.acquire req) s).ret = none ∧
      (DeletePost client (Ctx.acquire req) s).ret = none ∧
      (CreatePost client (Ctx.acquire req) s).response.status = 200 ∧
      (GetPost client (Ctx.acquire req) s).response.status = 200 ∧
      (DeletePost client (Ctx.acquire req) s).response.status = 200) ∧
    (CreatePost memStore (Ctx.acquire rootRequest) MemState.failing).trace =
      [.createOne "Hi from Lutfii!" true " is a database toolkit and makes databases easy."
        (.error .storeFailure)] ∧
    (CreatePost memStore (Ctx.acquire rootRequest) MemState.failing).response =
      { status := 200, contentType := "text/plain; charset=utf-8", body := "" } ∧
    (GetPost memStore (Ctx.acquire rootRequest) MemState.failing).trace =
      [.findMany (.error .storeFailure)] ∧
    (GetPost memStore (Ctx.acquire rootRequest) MemState.failing).response =
      { status := 200, contentType := "text/plain; charset=utf-8", body := "" } ∧
    (DeletePost memStore (Ctx.acquire (deleteRequest "0")) MemState.failing).trace =
      [.deleteUnique "0" (.error .storeFailure)] ∧
    (DeletePost memStore (Ctx.acquire (deleteRequest "0")) MemState.failing).response =
      { status := 200, contentType := "text/plain; charset=utf-8", body := "" } := by
  refine ⟨?_, rfl, rfl, rfl, rfl, rfl, rfl⟩
  intro σ ε client req s
  refine ⟨?_, ?_, ?_, ?_, ?_, ?_⟩
  · unfold CreatePost
    rcases client.createOne "Hi from Lutfii!" true
      " is a database toolkit and makes databases easy." s with ⟨res, t1⟩
    cases res <;> rfl
  · unfold GetPost
    rcases client.findMany s with ⟨res, t1⟩
    cases res <;> rfl
  · unfold DeletePost
    rcases client.deleteUnique ((Ctx.acquire req).Params "id") s with ⟨res, t1⟩
    cases res <;> rfl
  · unfold CreatePost
    rcases client.createOne "Hi from Lutfii!" true
      " is a database toolkit and makes databases easy." s with ⟨res, t1⟩
    cases res <;> rfl
  · unfold GetPost
    rcases client.findMany s with ⟨res, t1⟩
    cases res <;> rfl
  · unfold DeletePost
    rcases client.deleteUnique ((Ctx.acquire req).Params "id") s with ⟨res, t1⟩
    cases res <;> rfl

/-- C3: a delete of an id without a live Post is not answered with 404.  The id
"xyz" has no live Post in the store that holds only the Post "0"; `DeletePost`
makes the one delete call for "xyz", the store answers `notFound` and keeps its
Post, the handler returns nil without writing, and the response is status 200
with an empty body: neither status 404 nor an error body. -/
theorem deletePost_unknown_id_swallowed :
    (∀ p ∈ MemState.withSample.posts, p.id ≠ "xyz") ∧
    (Ctx.acquire (deleteRequest "xyz")).Params "id" = "xyz" ∧
    (DeletePost memStore (Ctx.acquire (deleteRequest "xyz")) MemState.withSample).trace =
      [.deleteUnique "xyz" (.error .notFound)] ∧
    (DeletePost memStore (Ctx.acquire (deleteRequest "xyz")) MemState.withSample).store.posts =
      [samplePost] ∧
    (DeletePost memStore (Ctx.acquire (deleteRequest "xyz")) MemState.withSample).ret = none ∧
    (DeletePost memStore (Ctx.acquire (deleteRequest "xyz")) MemState.withSample).response =
      { status := 200, contentType := "text/plain; charset=utf-8", body := "" } ∧
    ¬ ((DeletePost memStore (Ctx.acquire (deleteRequest "xyz"))
          MemState.withSample).response.status = 404 ∧
       (DeletePost memStore (Ctx.acquire (deleteRequest "xyz"))
          MemState.withSample).response.body ≠ "") := by
  refine ⟨by decide, rfl, rfl, rfl, rfl, rfl, ?_⟩
  intro h
  exact absurd h.1 (by decide)

/-! ## Start-up and routes -/

/-- C7: a failed `Connect` does not stop the process.  For every client `main`
reaches `app.Listen` whatever `Connect` returned; on the reference store whose
`Connect` fails, the process connects (error `storeFailure`), listens on
"0.0.0.0:8080", serves a `GetPost` with the unconnected client, and disconnects. -/
theorem listen_after_failed_connect :
    (∀ (σ ε : Type) (client : Store σ ε) (inbound : List (Endpoint × Request)) (s : σ),
      (process client inbound s).1.any ProcEvent.isListen = true) ∧
    (memStore.connect MemState.unreachable).1 = some .storeFailure ∧
    (init memStore MemState.unreachable).2.connected = false ∧
    (process memStore [(.getPost, rootRequest)] MemState.unreachable).1 =
      [.store (.connect (some .storeFailure)),
        .listen "0.0.0.0:8080" registered,
        .store (.findMany (.error .storeFailure)),
        .store (.disconnect none)] ∧
    (GetPost memStore (Ctx.acquire rootRequest) (init memStore MemState.unreachable).2).response =
      { status := 200, contentType := "text/plain; charset=utf-8", body := "" } := by
  refine ⟨?_, rfl, rfl, rfl, rfl⟩
  intro σ ε client inbound s
  simp [process, main, ProcEvent.isListen]

/-- C9: the registrations of `main` are not pairwise distinct.  The pair
(GET, "/swagger/*") is registered first with the default swagger handler and
again with the custom one, so the first match for it is the default handler and
the custom registration is shadowed; the four routes after them are distinct. -/
theorem swagger_route_registered_twice :
    ¬ registered.keys.Nodup ∧
    registered.routes[0]? =
      some { method := "GET", pattern := "/swagger/*", handler := .swaggerDefault } ∧
    registered.routes[1]? =
      some { method := "GET", pattern := "/swagger/*", handler := .swaggerCustom } ∧
    registered.firstMatch "GET" "/swagger/*" = some .swaggerDefault ∧
    (registered.keys.drop 2).Nodup ∧
    registered.keys.drop 2 =
      [("GET", "/"), ("GET", "/create-post"), ("GET", "/get-post"),
        ("GET", "/delete-post/:id")] := by
  refine ⟨by decide, rfl, rfl, rfl, by decide, rfl⟩

/-! ## Concrete runs -/

/-- The delete of the live Post "0": one delete call with that id, and the body
is the encoding of the deleted Post. -/
theorem deletePost_one_delete_witness :
    (Ctx.acquire (deleteRequest "0")).Params "id" = "0" ∧
    (DeletePost memStore (Ctx.acquire (deleteRequest "0")) MemState.withSample).trace.map
      StoreEvent.call = [.deleteUnique "0"] ∧
    (DeletePost memStore (Ctx.acquire (deleteRequest "0")) MemState.withSample).response.body =
      samplePost.toJSON.render :=
  ⟨rfl,
    (deletePost_one_delete memStore (deleteRequest "0") MemState.withSample "0" rfl).1,
    ((deletePost_one_delete memStore (deleteRequest "0") MemState.withSample "0" rfl).2.2.2
      samplePost rfl).2.1⟩

/-- Listing a store that holds one Post: the body is the array of that Post. -/
theorem getPost_one_findMany_witness :
    (memStore.findMany MemState.withSample).1 = .ok [samplePost] ∧
    (GetPost memStore (Ctx.acquire rootRequest) MemState.withSample).response.body =
      (JVal.arr [samplePost.toJSON]).render :=
  ⟨rfl, ((getPost_one_findMany memStore rootRequest MemState.withSample).2.2.2
    [samplePost] rfl).2.1⟩

/-- A create on the empty store: the body is the encoding of the created Post. -/
theorem createPost_fixed_create_witness :
    (memStore.createOne "Hi from Lutfii!" true
      " is a database toolkit and makes databases easy." MemState.empty).1 = .ok samplePost ∧
    (CreatePost memStore (Ctx.acquire rootRequest) MemState.empty).response.body =
      samplePost.toJSON.render :=
  ⟨rfl, ((createPost_fixed_create memStore rootRequest (deleteRequest "7") MemState.empty
    MemState.failing).2.2.2.2.2.2 samplePost rfl).2.1⟩

/-- Running `Run` on a new client of the reference store returns nil after the four
calls connect, create, find-unique "0", disconnect. -/
theorem run_outcome_and_calls_witness :
    (∀ t, (memStore.disconnect t).1 = none) ∧
    (Run memStore MemState.newClient).outcome = .returned none ∧
    (Run memStore MemState.newClient).trace.map StoreEvent.call =
      [.connect,
        .createOne "Hi from Prisma!" true
          "Prisma is a database toolkit and makes databases easy.",
        .findUnique "0", .disconnect] :=
  ⟨fun _ => rfl,
    ((run_outcome_and_calls memStore MemState.newClient (fun _ => rfl)).2.2.2.2
      { id := "0", title := "Hi from Prisma!",
        desc := some "Prisma is a database toolkit and makes databases easy.",
        published := true }
      { id := "0", title := "Hi from Prisma!",
        desc := some "Prisma is a database toolkit and makes databases easy.",
        published := true } rfl rfl rfl).2.2 (by simp),
    ((run_outcome_and_calls memStore MemState.newClient (fun _ => rfl)).2.2.2.2
      { id := "0", title := "Hi from Prisma!",
        desc := some "Prisma is a database toolkit and makes databases easy.",
        published := true }
      { id := "0", title := "Hi from Prisma!",
        desc := some "Prisma is a database toolkit and makes databases easy.",
        published := true } rfl rfl rfl).1⟩

/-- Two creates and one successful delete (the repeated delete fails): the
following `GetPost` lists exactly one Post, the one with id "1". -/
theorem getPost_after_creates_and_deletes_witness :
    MemState.empty.posts = [] ∧
    createdCount (serveAll memStore sampleRequests MemState.empty).1 = 2 ∧
    deletedCount (serveAll memStore sampleRequests MemState.empty).1 = 1 ∧
    (GetPost memStore (Ctx.acquire rootRequest)
      (serveAll memStore sampleRequests MemState.empty).2).response.body =
      (JVal.arr [({ samplePost with id := "1" } : Post).toJSON]).render ∧
    [({ samplePost with id := "1" } : Post)].length =
      createdCount (serveAll memStore sampleRequests MemState.empty).1 -
        deletedCount (serveAll memStore sampleRequests MemState.empty).1 :=
  ⟨rfl, rfl, rfl,
    (getPost_after_creates_and_deletes sampleRequests MemState.empty rootRequest
      [{ samplePost with id := "1" }] rfl rfl).1,
    (getPost_after_creates_and_deletes sampleRequests MemState.empty rootRequest
      [{ samplePost with id := "1" }] rfl rfl).2.1⟩

end GoPrisma
